import Mathlib

/-!
# Verification of the Habr keyword scraper (`main.py`)

A shallow embedding of the scraper's core routines:

* `HabrScraper._get_page_with_retry` (lines 76-99) — `getPageFrom`,
  `HabrScraper.getPageWithRetry`; the network is an oracle
  `responses : Nat → Option String` giving each attempt's outcome
  (`none` = a raised `requests.RequestException`, `some body` = success),
  and the total of `time.sleep` calls is returned alongside the result.
* `HabrScraper._find_keywords_with_regex` (101-110) — `findKeywordsWithRegex`,
  with Python's `\b…\b` / `re.IGNORECASE` literal-word search modelled
  character-exactly by `searchWord`.
* `HabrScraper._parse_date` (112-138) — `parseDate`, with `datetime.strptime`
  modelled down to CPython's `_strptime` per-directive regexes (including
  their alternation order and backtracking) and `strftime('%Y-%m-%d')`
  modelled as on POSIX platforms (the year is rendered unpadded).
* `HabrScraper._parse_article_preview` (140-241) — `parseArticlePreview`,
  over an HTML element tree `Node` on which BeautifulSoup's `find`,
  `find_all`, `get_text(strip=True)` and `get` are implemented directly.
* `HabrScraper.find_articles` (243-267) — `findArticles` / `extractRecords`.

ASCII-only caveats, shared by every definition here: Python's `str.lower`,
`re.IGNORECASE` and `\w` are Unicode-aware; the embedding's `lowerChar`
lowercases exactly the ASCII letters and `isWordChar` counts ASCII
alphanumerics, `_` and the Cyrillic block U+0400–U+04FF (the alphabets the
program's keywords draw from) as word characters.  All structural theorems
below are insensitive to the exact extension of these two predicates.
-/

/-- Code point of a character, as a `Nat`. -/
def code (c : Char) : Nat := c.toNat

/-- The decimal digit character for `k < 10` (code 48 + k). -/
def dc (k : Nat) : Char := Char.ofNat (48 + k)

/-- Numeric value of a decimal digit character. -/
def dVal (c : Char) : Nat := code c - 48

/-- ASCII decimal digit test (`\d` over the pattern's relevant inputs). -/
def isDigitC (c : Char) : Bool := 48 ≤ code c && code c ≤ 57

/-- Embedding of Python `str.lower` on a character (ASCII range; see header). -/
def lowerChar (c : Char) : Char :=
  if 65 ≤ code c ∧ code c ≤ 90 then Char.ofNat (code c + 32) else c

/-- Embedding of Python `str.lower` on a string (ASCII range; see header). -/
def lowerStr (s : String) : String := String.mk (s.data.map lowerChar)

/-- ASCII uppercase-letter test. -/
def isUpperC (c : Char) : Bool := 65 ≤ code c && code c ≤ 90

/-- Word character for Python's `\b`: ASCII alphanumerics, `_`, and the
Cyrillic block (see the header's ASCII caveat). -/
def isWordChar (c : Char) : Bool :=
  (48 ≤ code c && code c ≤ 57) || (65 ≤ code c && code c ≤ 90) ||
  (97 ≤ code c && code c ≤ 122) || c = '_' ||
  (0x400 ≤ code c && code c ≤ 0x4FF)

/-- Whitespace stripped by Python `str.strip()` (the ASCII part). -/
def isWS (c : Char) : Bool := c = ' ' || c = '\t' || c = '\n' || c = '\r'

/-- Strip leading and trailing whitespace (Python `str.strip()`). -/
def trimL (l : List Char) : List Char :=
  ((l.dropWhile isWS).reverse.dropWhile isWS).reverse

/-- Split on runs of spaces, dropping empties (how BeautifulSoup turns a
`class` attribute value into a class list). -/
def splitWSAux : List Char → List Char → List (List Char)
  | [], acc => if acc = [] then [] else [acc.reverse]
  | c :: rest, acc =>
    if isWS c then
      (if acc = [] then splitWSAux rest [] else acc.reverse :: splitWSAux rest [])
    else splitWSAux rest (c :: acc)

/-- Python `' '.join(parts)`. -/
def joinSpace : List String → String
  | [] => ""
  | [x] => x
  | x :: rest => x ++ " " ++ joinSpace rest

/-- Python `s[:n]` (slicing counts characters). -/
def strTake (s : String) (n : Nat) : String := String.mk (s.data.take n)

/-- Python `s.startswith(p)`. -/
def strStartsWith (s p : String) : Bool := p.data.isPrefixOf s.data

/-! ## The HTML element tree and the BeautifulSoup operations used

`_parse_article_preview` only ever calls `find`, `find_all`,
`get_text(strip=True)` and `.get(attr, default)` on its element, so an
element is a tag/attributes/children tree (text nodes included) and those
four library operations are implemented on it directly. -/

mutual
/-- An HTML node: a text node or an element with tag, attributes, children. -/
inductive Node where
  | text (s : String)
  | elem (tag : String) (attrs : List (String × String)) (children : NodeList)
/-- Children of an element, as a bespoke list so that all traversals are
structural (hence kernel-evaluable on concrete documents). -/
inductive NodeList where
  | nil
  | cons (hd : Node) (tl : NodeList)
end

/-- Attribute lookup (first binding wins, like an HTML parser keeps one). -/
def Node.attrOf (n : Node) (name : String) : Option String :=
  match n with
  | .text _ => none
  | .elem _ attrs _ => attrs.lookup name

/-- BeautifulSoup `element.get(name, dflt)`. -/
def Node.getAttrD (n : Node) (name dflt : String) : String :=
  match n.attrOf name with
  | some v => v
  | none => dflt

/-- Does the element's space-separated `class` attribute contain `cls`
(BeautifulSoup's `class_=` filter)? -/
def Node.hasClass (n : Node) (cls : String) : Bool :=
  match n.attrOf "class" with
  | some v => (splitWSAux v.data []).contains cls.data
  | none => false

/-- Does a node match a `find`/`find_all` query for tag name and
(optionally) a class? -/
def nodeMatch (n : Node) (tag : String) (cls : Option String) : Bool :=
  match n with
  | .text _ => false
  | .elem t _ _ => t = tag && (match cls with | none => true | some c => n.hasClass c)

mutual
/-- All matching strict descendants of a node, in document (preorder)
order: BeautifulSoup `find_all(tag, class_=cls)`. -/
def findAllN (tag : String) (cls : Option String) : Node → List Node
  | .text _ => []
  | .elem _ _ children => findAllL tag cls children
/-- `findAllN` over a child list. -/
def findAllL (tag : String) (cls : Option String) : NodeList → List Node
  | .nil => []
  | .cons n rest =>
    (if nodeMatch n tag cls then [n] else []) ++ findAllN tag cls n ++ findAllL tag cls rest
end

/-- BeautifulSoup `find(tag, class_=cls)`: first matching descendant. -/
def Node.find (n : Node) (tag : String) (cls : Option String) : Option Node :=
  (findAllN tag cls n).head?

/-- BeautifulSoup `find_all`, as a method. -/
def Node.findAll (n : Node) (tag : String) (cls : Option String) : List Node :=
  findAllN tag cls n

mutual
/-- The strings of all text nodes of a subtree, in document order. -/
def textsOf : Node → List String
  | .text s => [s]
  | .elem _ _ children => textsOfL children
/-- `textsOf` over a child list. -/
def textsOfL : NodeList → List String
  | .nil => []
  | .cons n rest => textsOf n ++ textsOfL rest
end

/-- BeautifulSoup `get_text(strip=True)`: each string stripped, empties
dropped, the rest concatenated. -/
def Node.getTextStrip (n : Node) : String :=
  String.join (((textsOf n).map (fun s => String.mk (trimL s.data))).filter (fun s => s ≠ ""))

/-! ## `datetime.strptime` / `strftime`, as `_parse_date` uses them

CPython's `_strptime` compiles each directive to a small regex and glues
them with the format's literals into one pattern, then `re.match`es it
and errors if the match does not reach the end of the string
("unconverted data remains"); on success `datetime(...)` validates the
fields.  Each directive below returns its alternatives' outcomes in the
regex's alternation order, sequencing is `List.flatMap`, so the head of the
final list is exactly the first match regex backtracking finds.
Directive regexes (CPython `_strptime.TimeRE`):
`%Y` = `\d\d\d\d`, `%m` = `1[0-2]|0[1-9]|[1-9]`,
`%d` = `3[0-1]|[1-2]\d|0[1-9]|[1-9]| [1-9]`, `%H` = `2[0-3]|[0-1]\d|\d`,
`%M` = `[0-5]\d|\d`, `%S` = `6[0-1]|[0-5]\d|\d`, `%f` = `[0-9]{1,6}`. -/

/-- The six `datetime` fields `_parse_date`'s four formats can set
(microseconds from `%f` included for completeness). -/
structure DT where
  y : Nat
  mo : Nat
  da : Nat
  hh : Nat
  mi : Nat
  ss : Nat
  us : Nat
deriving DecidableEq, Repr

/-- The zero `DT`, fields a fresh `datetime` would default. -/
def DT.zero : DT := ⟨0, 0, 0, 0, 0, 0, 0⟩

/-- `%Y`: exactly four digits. -/
def pY (l : List Char) : List (Nat × List Char) :=
  match l with
  | a :: b :: c :: d :: r =>
    if isDigitC a && isDigitC b && isDigitC c && isDigitC d then
      [(1000 * dVal a + 100 * dVal b + 10 * dVal c + dVal d, r)]
    else []
  | _ => []

/-- `%m`: `1[0-2]|0[1-9]|[1-9]`, alternatives in regex order. -/
def pMo (l : List Char) : List (Nat × List Char) :=
  (match l with
   | a :: b :: r => if a = '1' && 48 ≤ code b && code b ≤ 50 then [(10 + dVal b, r)] else []
   | _ => []) ++
  (match l with
   | a :: b :: r => if a = '0' && 49 ≤ code b && code b ≤ 57 then [(dVal b, r)] else []
   | _ => []) ++
  (match l with
   | a :: r => if 49 ≤ code a && code a ≤ 57 then [(dVal a, r)] else []
   | _ => [])

/-- `%d`: `3[0-1]|[1-2]\d|0[1-9]|[1-9]| [1-9]`, alternatives in regex order. -/
def pDa (l : List Char) : List (Nat × List Char) :=
  (match l with
   | a :: b :: r => if a = '3' && 48 ≤ code b && code b ≤ 49 then [(30 + dVal b, r)] else []
   | _ => []) ++
  (match l with
   | a :: b :: r => if 49 ≤ code a && code a ≤ 50 && isDigitC b then [(10 * dVal a + dVal b, r)] else []
   | _ => []) ++
  (match l with
   | a :: b :: r => if a = '0' && 49 ≤ code b && code b ≤ 57 then [(dVal b, r)] else []
   | _ => []) ++
  (match l with
   | a :: r => if 49 ≤ code a && code a ≤ 57 then [(dVal a, r)] else []
   | _ => []) ++
  (match l with
   | a :: b :: r => if a = ' ' && 49 ≤ code b && code b ≤ 57 then [(dVal b, r)] else []
   | _ => [])

/-- `%H`: `2[0-3]|[0-1]\d|\d`, alternatives in regex order. -/
def pH (l : List Char) : List (Nat × List Char) :=
  (match l with
   | a :: b :: r => if a = '2' && 48 ≤ code b && code b ≤ 51 then [(20 + dVal b, r)] else []
   | _ => []) ++
  (match l with
   | a :: b :: r => if 48 ≤ code a && code a ≤ 49 && isDigitC b then [(10 * dVal a + dVal b, r)] else []
   | _ => []) ++
  (match l with
   | a :: r => if isDigitC a then [(dVal a, r)] else []
   | _ => [])

/-- `%M`: `[0-5]\d|\d`, alternatives in regex order. -/
def pMi (l : List Char) : List (Nat × List Char) :=
  (match l with
   | a :: b :: r => if 48 ≤ code a && code a ≤ 53 && isDigitC b then [(10 * dVal a + dVal b, r)] else []
   | _ => []) ++
  (match l with
   | a :: r => if isDigitC a then [(dVal a, r)] else []
   | _ => [])

/-- `%S`: `6[0-1]|[0-5]\d|\d`, alternatives in regex order. -/
def pS (l : List Char) : List (Nat × List Char) :=
  (match l with
   | a :: b :: r => if a = '6' && 48 ≤ code b && code b ≤ 49 then [(60 + dVal b, r)] else []
   | _ => []) ++
  (match l with
   | a :: b :: r => if 48 ≤ code a && code a ≤ 53 && isDigitC b then [(10 * dVal a + dVal b, r)] else []
   | _ => []) ++
  (match l with
   | a :: r => if isDigitC a then [(dVal a, r)] else []
   | _ => [])

/-- The leading-digit prefix of `l` of length exactly `k`, if present. -/
def takeDigits (k : Nat) (l : List Char) : Option (List Char × List Char) :=
  match k, l with
  | 0, r => some ([], r)
  | _ + 1, [] => none
  | k + 1, c :: r =>
    if isDigitC c then
      match takeDigits k r with
      | some (ds, rest) => some (c :: ds, rest)
      | none => none
    else none

/-- Value of a digit list, most significant first. -/
def digitsVal (l : List Char) : Nat := l.foldl (fun a c => 10 * a + dVal c) 0

/-- `%f`: `[0-9]{1,6}`, longest first; the value is microseconds,
scaled as CPython does (`int(s) * 10^(6-len(s))`). -/
def pF (l : List Char) : List (Nat × List Char) :=
  ([6, 5, 4, 3, 2, 1].filterMap (fun k =>
    (takeDigits k l).map (fun p => (digitsVal p.1 * 10 ^ (6 - k), p.2))))

/-- A format literal. -/
def pLit (c : Char) (l : List Char) : List (Unit × List Char) :=
  match l with
  | x :: r => if x = c then [((), r)] else []
  | [] => []

/-- Shared `%Y-%m-%d` prefix of all four formats. -/
def pYMD (l : List Char) : List (DT × List Char) :=
  (pY l).flatMap fun (y, r) =>
  (pLit '-' r).flatMap fun (_, r) =>
  (pMo r).flatMap fun (mo, r) =>
  (pLit '-' r).flatMap fun (_, r) =>
  (pDa r).flatMap fun (da, r) =>
  [({ DT.zero with y := y, mo := mo, da := da }, r)]

/-- `%H:%M:%S` sequence shared by the three time-bearing formats. -/
def pHMS (dt : DT) (l : List Char) : List (DT × List Char) :=
  (pH l).flatMap fun (hh, r) =>
  (pLit ':' r).flatMap fun (_, r) =>
  (pMi r).flatMap fun (mi, r) =>
  (pLit ':' r).flatMap fun (_, r) =>
  (pS r).flatMap fun (ss, r) =>
  [({ dt with hh := hh, mi := mi, ss := ss }, r)]

/-- Format `'%Y-%m-%dT%H:%M:%S.%fZ'`. -/
def fmt1 (l : List Char) : List (DT × List Char) :=
  (pYMD l).flatMap fun (dt, r) =>
  (pLit 'T' r).flatMap fun (_, r) =>
  (pHMS dt r).flatMap fun (dt, r) =>
  (pLit '.' r).flatMap fun (_, r) =>
  (pF r).flatMap fun (us, r) =>
  (pLit 'Z' r).flatMap fun (_, r) =>
  [({ dt with us := us }, r)]

/-- Format `'%Y-%m-%dT%H:%M:%SZ'`. -/
def fmt2 (l : List Char) : List (DT × List Char) :=
  (pYMD l).flatMap fun (dt, r) =>
  (pLit 'T' r).flatMap fun (_, r) =>
  (pHMS dt r).flatMap fun (dt, r) =>
  (pLit 'Z' r).flatMap fun (_, r) =>
  [(dt, r)]

/-- Format `'%Y-%m-%d %H:%M:%S'`. -/
def fmt3 (l : List Char) : List (DT × List Char) :=
  (pYMD l).flatMap fun (dt, r) =>
  (pLit ' ' r).flatMap fun (_, r) =>
  pHMS dt r

/-- Format `'%Y-%m-%d'`. -/
def fmt4 (l : List Char) : List (DT × List Char) := pYMD l

/-- Days in a month, with the Gregorian leap rule (`datetime`'s checks). -/
def daysInMonth (y mo : Nat) : Nat :=
  if mo = 2 then
    (if y % 4 = 0 ∧ (y % 100 ≠ 0 ∨ y % 400 = 0) then 29 else 28)
  else if mo = 4 ∨ mo = 6 ∨ mo = 9 ∨ mo = 11 then 30
  else 31

/-- `datetime(...)` field validation (`MINYEAR = 1`, `MAXYEAR = 9999`;
seconds must be `0..59`, so the regex's leap-second 60/61 is rejected). -/
def validDT (dt : DT) : Bool :=
  1 ≤ dt.y && dt.y ≤ 9999 && 1 ≤ dt.mo && dt.mo ≤ 12 &&
  1 ≤ dt.da && dt.da ≤ daysInMonth dt.y dt.mo &&
  dt.hh ≤ 23 && dt.mi ≤ 59 && dt.ss ≤ 59

/-- `datetime.strptime(s, fmt)`: first regex match, which must reach the
end of the string, then field validation; `none` is a `ValueError`. -/
def strptimeF (p : List Char → List (DT × List Char)) (s : String) : Option DT :=
  match (p s.data).head? with
  | some (dt, []) => if validDT dt then some dt else none
  | _ => none

/-- The format loop of `_parse_date` (lines 126-131): formats tried in
order, first success wins. -/
def parseDateAux (s : String) : Option DT :=
  match strptimeF fmt1 s with
  | some dt => some dt
  | none =>
  match strptimeF fmt2 s with
  | some dt => some dt
  | none =>
  match strptimeF fmt3 s with
  | some dt => some dt
  | none => strptimeF fmt4 s

/-- Decimal rendering, fuelled so the recursion is structural (the fuel
is immaterial once it reaches the value; see `natToDecimalAux_fuel`). -/
def natToDecimalAux : Nat → Nat → List Char
  | 0, n => [dc n]
  | fuel + 1, n => if n < 10 then [dc n] else natToDecimalAux fuel (n / 10) ++ [dc (n % 10)]

/-- Decimal rendering of a number, as C's `printf`-style `%d` (and hence
POSIX `strftime`'s `%Y`) produces it: no zero padding. -/
def natToDecimal (n : Nat) : List Char := natToDecimalAux n n

/-- Two-digit zero-padded field (`strftime` `%m`, `%d`). -/
def pad2 (n : Nat) : List Char :=
  if n < 10 then ['0', dc n] else [dc (n / 10), dc (n % 10)]

/-- `parsed_date.strftime('%Y-%m-%d')` (line 129), on a POSIX platform:
`%Y` unpadded, `%m`/`%d` two-digit. -/
def strftimeYMD (dt : DT) : String :=
  String.mk (natToDecimal dt.y ++ '-' :: (pad2 dt.mo ++ '-' :: pad2 dt.da))

/-- `HabrScraper._parse_date` (lines 112-138).  The body's own `try` can
only be left through the format loop or the explicit fallbacks, so the
outer `except` branch (line 136) is dead and has no counterpart here. -/
def parseDate (dateStr : String) : String :=
  if dateStr = "" then "Дата не найдена"
  else
    match parseDateAux dateStr with
    | some dt => strftimeYMD dt
    | none => if dateStr.length ≥ 10 then strTake dateStr 10 else dateStr

/-! ## The compiled keyword patterns

`__init__` (lines 54-74) lowercases the keywords and compiles
`re.compile(rf'\b{re.escape(keyword)}\b', re.IGNORECASE)` for each;
`re.escape` makes the keyword a literal, so `pattern.search(text)` asks
whether the keyword occurs somewhere in `text` up to case, with a word
boundary (`\b`: positions where exactly one neighbour is a `\w` char)
at both ends.  `searchWord` is that search, on character lists. -/

/-- Is position `i` of `t` a word character (`false` past the end)? -/
def isWordAt (t : List Char) (i : Nat) : Bool :=
  match t.get? i with
  | some c => isWordChar c
  | none => false

/-- Is the character just before position `i` a word character
(`false` at position 0)? -/
def prevIsWord (t : List Char) (i : Nat) : Bool :=
  match i with
  | 0 => false
  | j + 1 => isWordAt t j

/-- Python `\b` at position `i` of `t`. -/
def boundaryAt (t : List Char) (i : Nat) : Bool :=
  prevIsWord t i != isWordAt t i

/-- Case-insensitive character match (`re.IGNORECASE`). -/
def charCI (p c : Char) : Bool := lowerChar p == lowerChar c

/-- Does the literal `kw` match a prefix of `l`, case-insensitively? -/
def matchesCI : List Char → List Char → Bool
  | [], _ => true
  | _ :: _, [] => false
  | p :: ps, c :: cs => charCI p c && matchesCI ps cs

/-- `re.compile(rf'\b{re.escape(kw)}\b', re.IGNORECASE).search(t)`:
some position carries a boundary, the literal, and a closing boundary. -/
def searchWord (kw t : List Char) : Bool :=
  (List.range (t.length + 1)).any fun i =>
    boundaryAt t i && matchesCI kw (t.drop i) && boundaryAt t (i + kw.length)

/-- The scraper's state that the embedded methods read: the lowercased
keyword list and the retry bound (`__init__`, lines 54-74; the compiled
patterns are a pure function of `keywords` and are recomputed at use). -/
structure HabrScraper where
  keywords : List String
  maxRetries : Nat
deriving DecidableEq, Repr

/-- `HabrScraper(keywords, max_retries)`: lowercases every keyword
(line 55). -/
def HabrScraper.init (keywords : List String) (maxRetries : Nat) : HabrScraper :=
  { keywords := keywords.map lowerStr, maxRetries := maxRetries }

/-- `HabrScraper._find_keywords_with_regex` (lines 101-110): collect, in
configuration order, each stored keyword whose pattern finds a match in
`text`.  (The method's `text_lower` local is computed but never used.) -/
def HabrScraper.findKeywordsWithRegex (s : HabrScraper) (text : String) : List String :=
  s.keywords.filter fun kw => searchWord kw.data text.data

/-! ## The per-fragment extractor and the pipeline -/

/-- One found article (`Article` dataclass, lines 33-39). -/
structure Article where
  title : String
  link : String
  date : String
  preview_text : String
  found_keywords : List String
deriving DecidableEq, Repr

/-- Lines 166-168: prepend the base origin unless the href starts with
`"http"`. -/
def resolveLink (link : String) : String :=
  if !(strStartsWith link "http") then "https://habr.com" ++ link else link

/-- Line 144: `article_element.find('h2', class_='tm-title')`. -/
def titleElementOf (el : Node) : Option Node :=
  el.find "h2" (some "tm-title")

/-- Lines 144-152 composed: the `a.tm-title__link` inside the title. -/
def titleLinkOf (el : Node) : Option Node :=
  (titleElementOf el).bind fun te => te.find "a" (some "tm-title__link")

/-- Lines 155-156: text of the first `span` inside the link, else the
link's own text. -/
def titleTextOf (tl : Node) : String :=
  match tl.find "span" none with
  | some sp => sp.getTextStrip
  | none => tl.getTextStrip

/-- Lines 171-172: the `datetime` attribute of the first `time` element,
`''` when absent. -/
def dateStrOf (el : Node) : String :=
  match el.find "time" none with
  | some de => de.getAttrD "datetime" ""
  | none => ""

/-- Lines 176-220: the space-joined preview text: title, non-empty lead
texts, body texts, hub/tag texts (two selector variants), author names,
then the fragment's full text (appended unconditionally). -/
def previewTextOf (el : Node) (title : String) : String :=
  joinSpace ([title]
    ++ ((el.findAll "div" (some "tm-article-snippet__lead")).map Node.getTextStrip).filter (fun t => t ≠ "")
    ++ ((el.findAll "div" (some "tm-article-body")).map Node.getTextStrip).filter (fun t => t ≠ "")
    ++ ((el.findAll "a" (some "tm-article-snippet__hubs-item-link")).map Node.getTextStrip).filter (fun t => t ≠ "")
    ++ ((el.findAll "a" (some "tm-hub-link")).map Node.getTextStrip).filter (fun t => t ≠ "")
    ++ ((el.findAll "a" (some "tm-user-info__username")).map Node.getTextStrip).filter (fun t => t ≠ "")
    ++ [el.getTextStrip])

/-- `HabrScraper._parse_article_preview` (lines 140-241).  `none` is the
`return None` of every guard; the embedding raises nothing, so the
final `except` (lines 239-241) has no counterpart. -/
def HabrScraper.parseArticlePreview (s : HabrScraper) (el : Node) : Option Article :=
  match titleLinkOf el with
  | none => none
  | some titleLink =>
    let title := titleTextOf titleLink
    if title = "" then none
    else
      let link := titleLink.getAttrD "href" ""
      if link = "" then none
      else
        let link := resolveLink link
        let formattedDate := parseDate (dateStrOf el)
        let previewText := previewTextOf el title
        let foundKeywords := s.findKeywordsWithRegex previewText
        if foundKeywords = [] then none
        else some { title := title, link := link, date := formattedDate,
                    preview_text := previewText, found_keywords := foundKeywords }

/-- The extraction loop of `find_articles` (lines 260-264): parse each
fragment, keep the successes in order. -/
def HabrScraper.extractRecords (s : HabrScraper) (els : List Node) : List Article :=
  els.filterMap s.parseArticlePreview

/-- Attempt loop of `_get_page_with_retry` (lines 78-99), at attempt
number `attempt` with `remaining` attempts left (`remaining` is
`max_retries - attempt`; the loop guard `attempt < max_retries` is
`remaining ≠ 0`, and `attempt < max_retries - 1` is `1 < remaining`).
Returns the result (`none` models the implicit `return None` when the
`for` loop body never runs, i.e. `max_retries = 0`; `some ""` is the
exhaustion return of line 99) paired with the total argument of the
`time.sleep(2 ** attempt)` calls made. -/
def getPageLoop (responses : Nat → Option String) : Nat → Nat → Option String × Nat
  | _, 0 => (none, 0)
  | attempt, remaining + 1 =>
    match responses attempt with
    | some body => (some body, 0)
    | none =>
      if 0 < remaining then
        let r := getPageLoop responses (attempt + 1) remaining
        (r.1, 2 ^ attempt + r.2)
      else (some "", 0)

/-- `HabrScraper._get_page_with_retry` (lines 76-99), with the network
abstracted as the per-attempt oracle `responses` (`none` = raised
`requests.RequestException`, `some body` = `response.text`; the non-HTML
content-type check of lines 85-86 only logs and never changes the
result, so it has no counterpart here). -/
def HabrScraper.getPageWithRetry (s : HabrScraper) (responses : Nat → Option String) :
    Option String × Nat :=
  getPageLoop responses 0 s.maxRetries

/-- `HabrScraper.find_articles` (lines 243-267): fetch, stop on a falsy
result (`None`/`""`), else select the `article.tm-articles-list__item`
fragments of the parsed document (`parseHtml` abstracts
`BeautifulSoup(html, 'html.parser')`) and run the extraction loop. -/
def HabrScraper.findArticles (s : HabrScraper) (responses : Nat → Option String)
    (parseHtml : String → Node) : List Article :=
  match (s.getPageWithRetry responses).1 with
  | none => []
  | some html =>
    if html = "" then []
    else s.extractRecords ((parseHtml html).findAll "article" (some "tm-articles-list__item"))

/-! ## Definitions taken from the specification's words

These are *not* translations of `main.py`; they render phrases of the
spec so that refinement claims can compare them with the code. -/

/-- Spec side: drop the leading run satisfying `tail-char` after one
leading ALPHA, demanding a closing `':'` — RFC 3986
`scheme = ALPHA *( ALPHA / DIGIT / "+" / "-" / "." ) ":"`. -/
def schemeTail : List Char → Bool
  | [] => false
  | c :: rest =>
    if c = ':' then true
    else
      ((65 ≤ code c && code c ≤ 90) || (97 ≤ code c && code c ≤ 122) ||
       (48 ≤ code c && code c ≤ 57) || c = '+' || c = '-' || c = '.') &&
      schemeTail rest

/-- Spec side: "starts with a URI scheme". -/
def startsWithURIScheme (s : String) : Bool :=
  match s.data with
  | [] => false
  | c :: rest =>
    ((65 ≤ code c && code c ≤ 90) || (97 ≤ code c && code c ≤ 122)) && schemeTail rest

/-- Spec side: the string has the literal shape `YYYY-MM-DD`
(four digits, dash, two digits, dash, two digits). -/
def isYYYYMMDD (s : String) : Bool :=
  match s.data with
  | [a, b, c, d, e, f, g, h, i, j] =>
    isDigitC a && isDigitC b && isDigitC c && isDigitC d && e = '-' &&
    isDigitC f && isDigitC g && h = '-' && isDigitC i && isDigitC j
  | _ => false

/-- Is the first character a word character (`false` for `[]`)? -/
def headIsWordC (l : List Char) : Bool :=
  match l with
  | [] => false
  | c :: _ => isWordChar c

/-- Is the last character a word character (`false` for `[]`)? -/
def lastIsWordC (l : List Char) : Bool := headIsWordC l.reverse

/-- Spec side: "the keyword occurs as a case-insensitive whole word
(word-boundary anchored) in the text": the text splits as
`pre ++ mid ++ post` with `mid` equal to the keyword up to case and a
word/non-word flip at both seams. -/
def specWholeWord (kw text : String) : Prop :=
  ∃ pre mid post : List Char,
    text.data = pre ++ mid ++ post ∧
    mid.map lowerChar = kw.data.map lowerChar ∧
    lastIsWordC pre ≠ headIsWordC (mid ++ post) ∧
    lastIsWordC (pre ++ mid) ≠ headIsWordC post

/-! ## Helper lemmas -/

/-- `Char.ofNat` round-trips through `code` below the surrogate range. -/
theorem code_ofNat_of_lt {n : Nat} (h : n < 0xd800) : code (Char.ofNat n) = n := by
  have hv : n.isValidChar := Or.inl h
  simp [code, Char.ofNat, hv, Char.ofNatAux, Char.toNat, UInt32.toNat,
    BitVec.toNat_ofNatLt]

/-- Characters with different code points differ. -/
theorem ne_of_code_ne {a b : Char} (h : code a ≠ code b) : a ≠ b := by
  intro he
  exact h (he ▸ rfl)

/-- Code of a digit character. -/
theorem code_dc {k : Nat} (h : k ≤ 9) : code (dc k) = 48 + k := by
  have : 48 + k < 0xd800 := by omega
  simpa [dc] using code_ofNat_of_lt this

/-- Value of a digit character. -/
theorem dVal_dc {k : Nat} (h : k ≤ 9) : dVal (dc k) = k := by
  simp [dVal, code_dc h]

/-- Digit characters are digits. -/
theorem isDigitC_dc {k : Nat} (h : k ≤ 9) : isDigitC (dc k) = true := by
  simp [isDigitC, code_dc h]
  omega

/-- Code of the lowercased character. -/
theorem code_lowerChar (c : Char) :
    code (lowerChar c) = if 65 ≤ code c ∧ code c ≤ 90 then code c + 32 else code c := by
  unfold lowerChar
  split
  · next h => exact code_ofNat_of_lt (by omega)
  · rfl

/-- Lowercasing is idempotent. -/
theorem lowerChar_idem (c : Char) : lowerChar (lowerChar c) = lowerChar c := by
  have hc := code_lowerChar c
  have hno : ¬(65 ≤ code (lowerChar c) ∧ code (lowerChar c) ≤ 90) := by
    split at hc <;> omega
  conv_lhs => rw [lowerChar]
  rw [if_neg hno]

/-- A lowercased character is never an ASCII uppercase letter. -/
theorem isUpperC_lowerChar (c : Char) : isUpperC (lowerChar c) = false := by
  have hc := code_lowerChar c
  rw [Bool.eq_false_iff]
  intro ht
  have hcc : 65 ≤ code (lowerChar c) ∧ code (lowerChar c) ≤ 90 := by
    simpa [isUpperC] using ht
  split at hc <;> omega

/-- The fuel of `natToDecimalAux` is immaterial once it covers the value. -/
theorem natToDecimalAux_fuel : ∀ n f g, n ≤ f → n ≤ g →
    natToDecimalAux f n = natToDecimalAux g n := by
  intro n
  induction n using Nat.strong_induction_on with
  | _ n ih =>
    intro f g hf hg
    match f, g with
    | 0, 0 => rfl
    | 0, g + 1 =>
      have : n = 0 := by omega
      subst this
      simp [natToDecimalAux]
    | f + 1, 0 =>
      have : n = 0 := by omega
      subst this
      simp [natToDecimalAux]
    | f + 1, g + 1 =>
      simp only [natToDecimalAux]
      split
      · rfl
      · next h =>
        have h10 : 10 ≤ n := by omega
        rw [ih (n / 10) (by omega) f g (by omega) (by omega)]

/-- `natToDecimal` below 10. -/
theorem natToDecimal_lt10 {n : Nat} (h : n < 10) : natToDecimal n = [dc n] := by
  unfold natToDecimal
  match n, h with
  | 0, _ => rfl
  | k + 1, h => simp [natToDecimalAux, h]

/-- `natToDecimal` unfolds once at 10 and above. -/
theorem natToDecimal_ge10 {n : Nat} (h : 10 ≤ n) :
    natToDecimal n = natToDecimal (n / 10) ++ [dc (n % 10)] := by
  unfold natToDecimal
  match n, h with
  | k + 1, h =>
    simp only [natToDecimalAux]
    rw [if_neg (by omega)]
    rw [natToDecimalAux_fuel ((k + 1) / 10) k ((k + 1) / 10) (by omega) (by omega)]

/-! ## Fetcher claims -/

/-- When every attempt raises, the loop returns `some ""` (line 99)
as soon as at least one attempt is made. -/
theorem getPageLoop_all_fail (responses : Nat → Option String)
    (hfail : ∀ i, responses i = none) :
    ∀ remaining attempt, 1 ≤ remaining →
      (getPageLoop responses attempt remaining).1 = some "" := by
  intro remaining
  induction remaining with
  | zero => intro _ h; omega
  | succ k ih =>
    intro attempt _
    unfold getPageLoop
    rw [hfail attempt]
    by_cases hk : 0 < k
    · rw [if_pos hk]
      exact ih (attempt + 1) hk
    · rw [if_neg hk]

/-- **C1.** If the first 3 fetch attempts fail and the next attempt
succeeds, then the fetch returns the body of the successful response and
the total time slept between attempts is exactly
`2^0 + 2^1 + 2^2 = 7` time units, with no sleep after the final attempt.
(The antecedent "the next attempt succeeds" presupposes a fourth attempt
is allowed, i.e. `max_retries ≥ 4`.) -/
theorem retry_three_failures_then_success
    (s : HabrScraper) (responses : Nat → Option String) (body : String)
    (hmr : 4 ≤ s.maxRetries)
    (h0 : responses 0 = none) (h1 : responses 1 = none)
    (h2 : responses 2 = none) (h3 : responses 3 = some body) :
    s.getPageWithRetry responses = (some body, 7) := by
  obtain ⟨r, hr⟩ : ∃ r, s.maxRetries = r + 4 := ⟨s.maxRetries - 4, by omega⟩
  unfold HabrScraper.getPageWithRetry
  rw [hr]
  have e3 : getPageLoop responses 3 (r + 1) = (some body, 0) := by
    unfold getPageLoop
    rw [h3]
  have e2 : getPageLoop responses 2 (r + 2) = (some body, 4) := by
    unfold getPageLoop
    rw [h2, if_pos (by omega : 0 < r + 1), e3]
    rfl
  have e1 : getPageLoop responses 1 (r + 3) = (some body, 6) := by
    unfold getPageLoop
    rw [h1, if_pos (by omega : 0 < r + 2), e2]
    rfl
  have e0 : getPageLoop responses 0 (r + 4) = (some body, 7) := by
    unfold getPageLoop
    rw [h0, if_pos (by omega : 0 < r + 3), e1]
    rfl
  exact e0

/-- Witness for C1: four attempts allowed, attempts 0-2 fail, attempt 3
returns `"ok"`; the fetch yields `"ok"` having slept 7 units. -/
theorem retry_three_failures_then_success_witness :
    (HabrScraper.init ["python"] 4).getPageWithRetry
      (fun i => if i = 3 then some "ok" else none) = (some "ok", 7) :=
  retry_three_failures_then_success _ _ "ok" (by decide) rfl rfl rfl rfl

/-- **C8.** If every fetch attempt fails, the fetch returns the empty
string rather than raising, and `find_articles` then returns the empty
record list, whatever document the parser would have produced. -/
theorem fetch_exhaustion_empty_and_pipeline_stops
    (s : HabrScraper) (responses : Nat → Option String)
    (hmr : 1 ≤ s.maxRetries) (hfail : ∀ i, responses i = none) :
    (s.getPageWithRetry responses).1 = some "" ∧
    ∀ parseHtml : String → Node, s.findArticles responses parseHtml = [] := by
  have h1 : (s.getPageWithRetry responses).1 = some "" :=
    getPageLoop_all_fail responses hfail s.maxRetries 0 hmr
  refine ⟨h1, fun parseHtml => ?_⟩
  unfold HabrScraper.findArticles
  rw [h1]
  simp

/-- Witness for C8: the default three attempts, all failing. -/
theorem fetch_exhaustion_witness :
    ((HabrScraper.init ["python"] 3).getPageWithRetry (fun _ => none)).1 = some "" ∧
    (HabrScraper.init ["python"] 3).findArticles (fun _ => none) (fun _ => Node.text "") = [] := by
  have h := fetch_exhaustion_empty_and_pipeline_stops (HabrScraper.init ["python"] 3)
    (fun _ => none) (by decide) (fun _ => rfl)
  exact ⟨h.1, h.2 _⟩

/-! ## Extractor claims -/

/-- Anatomy of a successful `_parse_article_preview`: every guard held
and each record field is the corresponding extraction. -/
theorem parse_some_shape {s : HabrScraper} {el : Node} {a : Article}
    (h : s.parseArticlePreview el = some a) :
    ∃ tl, titleLinkOf el = some tl ∧
      a.title = titleTextOf tl ∧ titleTextOf tl ≠ "" ∧
      tl.getAttrD "href" "" ≠ "" ∧ a.link = resolveLink (tl.getAttrD "href" "") ∧
      a.preview_text = previewTextOf el (titleTextOf tl) ∧
      a.found_keywords = s.findKeywordsWithRegex (previewTextOf el (titleTextOf tl)) ∧
      a.found_keywords ≠ [] ∧
      a.date = parseDate (dateStrOf el) := by
  unfold HabrScraper.parseArticlePreview at h
  cases htl : titleLinkOf el with
  | none => rw [htl] at h; cases h
  | some tl =>
    rw [htl] at h
    simp only at h
    by_cases ht : titleTextOf tl = ""
    · rw [if_pos ht] at h; cases h
    · rw [if_neg ht] at h
      by_cases hh : tl.getAttrD "href" "" = ""
      · rw [if_pos hh] at h; cases h
      · rw [if_neg hh] at h
        by_cases hf : s.findKeywordsWithRegex (previewTextOf el (titleTextOf tl)) = []
        · rw [if_pos hf] at h; cases h
        · rw [if_neg hf] at h
          cases h
          exact ⟨tl, rfl, rfl, ht, hh, rfl, rfl, rfl, hf, rfl⟩

/-- Prefixing the base origin onto a non-empty href cannot empty it. -/
theorem resolveLink_ne_empty {l : String} (h : l ≠ "") : resolveLink l ≠ "" := by
  unfold resolveLink
  split
  · intro he
    have : ("https://habr.com" ++ l).data = [] := by rw [he]
    rw [String.data_append] at this
    simp at this
  · exact h

/-- **C3.** Every `Article` the extractor constructs satisfies:
`found_keywords` is non-empty, `title` is non-empty, and `link` is
non-empty — a fragment violating any of these yields no record at all. -/
theorem record_invariants (s : HabrScraper) (el : Node) (a : Article)
    (h : s.parseArticlePreview el = some a) :
    a.found_keywords ≠ [] ∧ a.title ≠ "" ∧ a.link ≠ "" := by
  obtain ⟨tl, _, hta, htne, hhne, hlink, _, _, hfne, _⟩ := parse_some_shape h
  exact ⟨hfne, hta ▸ htne, hlink ▸ resolveLink_ne_empty hhne⟩

/-- A well-formed fragment used to witness C3. -/
def elC3 : Node :=
  .elem "article" [("class", "tm-articles-list__item")] (.cons
    (.elem "h2" [("class", "tm-title")] (.cons
      (.elem "a" [("class", "tm-title__link"), ("href", "/ru/articles/3/")] (.cons
        (.elem "span" [] (.cons (.text "web tricks") .nil)) .nil)) .nil)) .nil)

/-- Witness for C3: a concrete fragment producing a record, whose
invariants then follow from the theorem. -/
theorem record_invariants_witness :
    ∃ a : Article,
      (HabrScraper.init ["web"] 3).parseArticlePreview elC3 = some a ∧
      a.found_keywords ≠ [] ∧ a.title ≠ "" ∧ a.link ≠ "" := by
  refine ⟨{ title := "web tricks", link := "https://habr.com/ru/articles/3/",
            date := "Дата не найдена", preview_text := "web tricks web tricks",
            found_keywords := ["web"] }, by decide, ?_⟩
  exact record_invariants (HabrScraper.init ["web"] 3) elC3 _ (by decide)

/-- **C7.** A fragment that is missing the title container, missing the
title's link element, has an empty title text, or whose title link has a
falsy href produces no record, and the extraction of the remaining
fragments proceeds as if the fragment were absent. -/
theorem fragment_missing_parts_skipped (s : HabrScraper) (el : Node) (l1 l2 : List Node)
    (h : titleElementOf el = none ∨ titleLinkOf el = none ∨
         (∃ tl, titleLinkOf el = some tl ∧ titleTextOf tl = "") ∨
         (∃ tl, titleLinkOf el = some tl ∧ tl.getAttrD "href" "" = "")) :
    s.parseArticlePreview el = none ∧
    s.extractRecords (l1 ++ el :: l2) = s.extractRecords (l1 ++ l2) := by
  have hnone : s.parseArticlePreview el = none := by
    unfold HabrScraper.parseArticlePreview
    rcases h with h | h | ⟨tl, htl, ht⟩ | ⟨tl, htl, hh⟩
    · have hl : titleLinkOf el = none := by
        unfold titleLinkOf
        rw [h]
        rfl
      rw [hl]
    · rw [h]
    · rw [htl]
      simp only
      rw [if_pos ht]
    · rw [htl]
      simp only
      by_cases ht : titleTextOf tl = ""
      · rw [if_pos ht]
      · rw [if_neg ht, if_pos hh]
  refine ⟨hnone, ?_⟩
  unfold HabrScraper.extractRecords
  rw [List.filterMap_append, List.filterMap_append, List.filterMap_cons_none hnone]

/-- A well-formed fragment used to witness C7's "extraction continues". -/
def elC7good : Node :=
  .elem "article" [] (.cons
    (.elem "h2" [("class", "tm-title")] (.cons
      (.elem "a" [("class", "tm-title__link"), ("href", "/a/")] (.cons
        (.text "photo fun") .nil)) .nil)) .nil)

/-- Witness for C7: a title-less fragment is skipped and its well-formed
neighbour still parses. -/
theorem fragment_missing_parts_skipped_witness :
    (HabrScraper.init ["photo"] 3).parseArticlePreview (Node.elem "article" [] .nil) = none ∧
    (HabrScraper.init ["photo"] 3).extractRecords
        ([] ++ Node.elem "article" [] .nil :: [elC7good]) =
      (HabrScraper.init ["photo"] 3).extractRecords ([] ++ [elC7good]) :=
  fragment_missing_parts_skipped (HabrScraper.init ["photo"] 3)
    (Node.elem "article" [] .nil) [] [elC7good] (Or.inl rfl)

/-- **C6 (amended).** For every extracted href, the record's link keeps
the href unchanged exactly when it starts with the literal prefix
`"http"`, and prepends `https://habr.com` otherwise.  (The original
claim's "starts with a URI scheme" is refuted by
`link_uri_scheme_counterexample`.) -/
theorem link_resolution_via_http_check (s : HabrScraper) (el : Node) (a : Article)
    (h : s.parseArticlePreview el = some a) :
    ∃ tl, titleLinkOf el = some tl ∧
      a.link = (if strStartsWith (tl.getAttrD "href" "") "http" then tl.getAttrD "href" ""
                else "https://habr.com" ++ tl.getAttrD "href" "") := by
  obtain ⟨tl, htl, _, _, _, hlink, _⟩ := parse_some_shape h
  refine ⟨tl, htl, ?_⟩
  rw [hlink]
  rcases Bool.eq_false_or_eq_true (strStartsWith (tl.getAttrD "href" "") "http") with hs | hs <;>
    simp [resolveLink, hs]

/-- The fragment of the spec's relative-link scenario. -/
def elC6 : Node :=
  .elem "article" [] (.cons
    (.elem "h2" [("class", "tm-title")] (.cons
      (.elem "a" [("class", "tm-title__link"), ("href", "/ru/articles/123/")] (.cons
        (.elem "span" [] (.cons (.text "python news") .nil)) .nil)) .nil)) .nil)

/-- The record `elC6` parses to. -/
def artC6 : Article :=
  { title := "python news", link := "https://habr.com/ru/articles/123/",
    date := "Дата не найдена", preview_text := "python news python news",
    found_keywords := ["python"] }

/-- Witness for C6: the relative href `/ru/articles/123/` resolves to
`https://habr.com/ru/articles/123/`. -/
theorem link_resolution_via_http_check_witness :
    (∃ tl, titleLinkOf elC6 = some tl ∧
      artC6.link = (if strStartsWith (tl.getAttrD "href" "") "http" then tl.getAttrD "href" ""
                    else "https://habr.com" ++ tl.getAttrD "href" "")) ∧
    artC6.link = "https://habr.com/ru/articles/123/" :=
  ⟨link_resolution_via_http_check (HabrScraper.init ["python"] 3) elC6 artC6 (by decide), by decide⟩

/-- A fragment whose href carries a non-`http` URI scheme. -/
def elC6bad : Node :=
  .elem "article" [] (.cons
    (.elem "h2" [("class", "tm-title")] (.cons
      (.elem "a" [("class", "tm-title__link"), ("href", "mailto:x@y.z")] (.cons
        (.elem "span" [] (.cons (.text "python talk") .nil)) .nil)) .nil)) .nil)

/-- Counterexample to C6 as stated: `mailto:x@y.z` starts with a URI
scheme, so the claim says it is kept unchanged, but the code prepends
the base origin because the href does not start with `"http"`. -/
theorem link_uri_scheme_counterexample :
    ((HabrScraper.init ["python"] 3).parseArticlePreview elC6bad).map Article.link =
      some "https://habr.commailto:x@y.z" ∧
    startsWithURIScheme "mailto:x@y.z" = true ∧
    ("https://habr.commailto:x@y.z" : String) ≠ "mailto:x@y.z" :=
  ⟨by decide, by decide, by decide⟩

/-- No character of a lowercased string is an ASCII uppercase letter. -/
theorem lowerStr_no_upper (s : String) : ∀ c ∈ (lowerStr s).data, isUpperC c = false := by
  intro c hc
  simp [lowerStr] at hc
  obtain ⟨d, _, rfl⟩ := hc
  exact isUpperC_lowerChar d

/-- **C9.** The constructor lowercases every configured keyword before
compiling patterns, so every element of a record's matched-keyword list
is the lowercased form of a configured keyword, and a configured keyword
containing an uppercase letter never appears verbatim in any record. -/
theorem keywords_lowercased (K : List String) (n : Nat) (el : Node) (a : Article)
    (h : (HabrScraper.init K n).parseArticlePreview el = some a) :
    (∀ x ∈ a.found_keywords, ∃ kw ∈ K, x = lowerStr kw) ∧
    ∀ kw ∈ K, (kw.data.any isUpperC) = true → kw ∉ a.found_keywords := by
  obtain ⟨tl, _, _, _, _, _, _, hfk, _, _⟩ := parse_some_shape h
  have hmem : ∀ x ∈ a.found_keywords, x ∈ K.map lowerStr := by
    intro x hx
    rw [hfk] at hx
    simp only [HabrScraper.findKeywordsWithRegex, HabrScraper.init] at hx
    exact (List.mem_filter.mp hx).1
  constructor
  · intro x hx
    obtain ⟨kw, hkw, rfl⟩ := List.mem_map.mp (hmem x hx)
    exact ⟨kw, hkw, rfl⟩
  · intro kw _ hup hmemkw
    obtain ⟨kw', _, hkk⟩ := List.mem_map.mp (hmem kw hmemkw)
    obtain ⟨c, hc, hcu⟩ := List.any_eq_true.mp hup
    have : isUpperC c = false := lowerStr_no_upper kw' c (hkk ▸ hc)
    rw [this] at hcu
    cases hcu

/-- A fragment matched by a mixed-case configured keyword. -/
def elC9 : Node :=
  .elem "article" [] (.cons
    (.elem "h2" [("class", "tm-title")] (.cons
      (.elem "a" [("class", "tm-title__link"), ("href", "/b/")] (.cons
        (.elem "span" [] (.cons (.text "Python 3.12") .nil)) .nil)) .nil)) .nil)

/-- The record `elC9` parses to under keyword `"PyThOn"`. -/
def artC9 : Article :=
  { title := "Python 3.12", link := "https://habr.com/b/",
    date := "Дата не найдена", preview_text := "Python 3.12 Python 3.12",
    found_keywords := ["python"] }

/-- Witness for C9: keyword `"PyThOn"` matches yet only its lowercased
form reaches the record. -/
theorem keywords_lowercased_witness :
    (∀ x ∈ artC9.found_keywords, ∃ kw ∈ ["PyThOn"], x = lowerStr kw) ∧
    ∀ kw ∈ ["PyThOn"], (kw.data.any isUpperC) = true → kw ∉ artC9.found_keywords :=
  keywords_lowercased ["PyThOn"] 3 elC9 artC9 (by decide)

/-! ## Date-normalization claims (C4, C5, C10) -/

theorem dc_ne_dash {k : Nat} (h : k ≤ 9) : dc k ≠ '-' := by
  apply ne_of_code_ne
  rw [code_dc h]
  have : code '-' = 45 := by decide
  omega

theorem isDigitC_dash : isDigitC '-' = false := by decide

theorem dc_ne_of_ne {k : Nat} (c : Char) (h : k ≤ 9) (hc : code c ≠ 48 + k) : dc k ≠ c := by
  apply ne_of_code_ne
  rw [code_dc h]
  omega

theorem natToDecimal_len2 {n : Nat} (h1 : 10 ≤ n) (h2 : n ≤ 99) :
    natToDecimal n = [dc (n / 10), dc (n % 10)] := by
  rw [natToDecimal_ge10 h1, natToDecimal_lt10 (by omega)]
  rfl

theorem natToDecimal_len3 {n : Nat} (h1 : 100 ≤ n) (h2 : n ≤ 999) :
    natToDecimal n = [dc (n / 100), dc (n / 10 % 10), dc (n % 10)] := by
  rw [natToDecimal_ge10 (by omega), natToDecimal_len2 (by omega) (by omega)]
  rw [Nat.div_div_eq_div_mul]
  rfl

theorem natToDecimal_len4 {n : Nat} (h1 : 1000 ≤ n) (h2 : n ≤ 9999) :
    natToDecimal n = [dc (n / 1000), dc (n / 100 % 10), dc (n / 10 % 10), dc (n % 10)] := by
  rw [natToDecimal_ge10 (by omega), natToDecimal_len3 (by omega) (by omega)]
  rw [Nat.div_div_eq_div_mul, Nat.div_div_eq_div_mul]
  rfl

theorem pY_digits {y : Nat} (h1 : 1000 ≤ y) (h2 : y ≤ 9999) (r : List Char) :
    pY (natToDecimal y ++ r) = [(y, r)] := by
  rw [natToDecimal_len4 h1 h2]
  simp only [pY, List.cons_append, List.nil_append,
    isDigitC_dc (show y / 1000 ≤ 9 by omega), isDigitC_dc (show y / 100 % 10 ≤ 9 by omega),
    isDigitC_dc (show y / 10 % 10 ≤ 9 by omega), isDigitC_dc (show y % 10 ≤ 9 by omega),
    Bool.and_self, if_true,
    dVal_dc (show y / 1000 ≤ 9 by omega), dVal_dc (show y / 100 % 10 ≤ 9 by omega),
    dVal_dc (show y / 10 % 10 ≤ 9 by omega), dVal_dc (show y % 10 ≤ 9 by omega)]
  have : 1000 * (y / 1000) + 100 * (y / 100 % 10) + 10 * (y / 10 % 10) + y % 10 = y := by omega
  rw [this]

theorem pY_fail {l : List Char} (h : l.get? 1 = some '-' ∨ l.get? 2 = some '-' ∨ l.get? 3 = some '-') :
    pY l = [] := by
  match l with
  | [] => rfl
  | [a] => rfl
  | [a, b] => rfl
  | [a, b, c] => rfl
  | a :: b :: c :: d :: r =>
    rcases h with h | h | h <;> simp only [List.get?] at h <;>
      injection h with h <;> subst h <;> simp [pY, isDigitC_dash]

theorem pMo_lt10 {mo : Nat} (h1 : 1 ≤ mo) (h2 : mo < 10) (r : List Char) :
    pMo (pad2 mo ++ r) = [(mo, r)] := by
  have hpad : pad2 mo = ['0', dc mo] := by rw [pad2, if_pos h2]
  rw [hpad]
  simp only [pMo, List.cons_append, List.nil_append, code_dc (show mo ≤ 9 by omega),
    dVal_dc (show mo ≤ 9 by omega)]
  simp [show decide ('0' = '1') = false from by decide,
    show decide (49 ≤ code '0') = false from by decide,
    decide_eq_true (show (49:Nat) ≤ 48 + mo by omega),
    decide_eq_true (show 48 + mo ≤ 57 by omega)]

theorem pMo_ge10 {mo : Nat} (h1 : 10 ≤ mo) (h2 : mo ≤ 12) (r : List Char) :
    pMo (pad2 mo ++ r) = [(mo, r), (1, dc (mo % 10) :: r)] := by
  have hpad : pad2 mo = [dc (mo / 10), dc (mo % 10)] := by rw [pad2, if_neg (by omega)]
  have hdiv : mo / 10 = 1 := by omega
  have hone : dc 1 = '1' := by decide
  rw [hpad, hdiv, hone]
  simp only [pMo, List.cons_append, List.nil_append, code_dc (show mo % 10 ≤ 9 by omega),
    dVal_dc (show mo % 10 ≤ 9 by omega)]
  simp [decide_eq_true (show (48:Nat) ≤ 48 + mo % 10 by omega),
    decide_eq_true (show 48 + mo % 10 ≤ 50 by omega),
    show decide ('1' = '0') = false from by decide,
    show (49 ≤ code '1') = True from by decide,
    show (code '1' ≤ 57) = True from by decide,
    show dVal '1' = 1 from by decide]
  omega

theorem pDa_lt10 {da : Nat} (h1 : 1 ≤ da) (h2 : da < 10) (r : List Char) :
    pDa (pad2 da ++ r) = [(da, r)] := by
  have hpad : pad2 da = ['0', dc da] := by rw [pad2, if_pos h2]
  rw [hpad]
  simp only [pDa, List.cons_append, List.nil_append, code_dc (show da ≤ 9 by omega),
    dVal_dc (show da ≤ 9 by omega)]
  simp [show decide ('0' = '3') = false from by decide,
    show decide ('0' = ' ') = false from by decide,
    show decide (49 ≤ code '0') = false from by decide,
    show isDigitC '0' = true from by decide,
    decide_eq_true (show (49:Nat) ≤ 48 + da by omega),
    decide_eq_true (show 48 + da ≤ 57 by omega)]

theorem pDa_ge10 {da : Nat} (h1 : 10 ≤ da) (h2 : da ≤ 31) (r : List Char) :
    pDa (pad2 da ++ r) = [(da, r), (da / 10, dc (da % 10) :: r)] := by
  have hpad : pad2 da = [dc (da / 10), dc (da % 10)] := by rw [pad2, if_neg (by omega)]
  rw [hpad]
  simp only [pDa, List.cons_append, List.nil_append, code_dc (show da / 10 ≤ 9 by omega),
    code_dc (show da % 10 ≤ 9 by omega), dVal_dc (show da / 10 ≤ 9 by omega),
    dVal_dc (show da % 10 ≤ 9 by omega), isDigitC_dc (show da % 10 ≤ 9 by omega)]
  by_cases h30 : da ≤ 29
  · have hne3 : decide (dc (da / 10) = '3') = false := by
      apply decide_eq_false
      apply dc_ne_of_ne _ (by omega)
      have : code '3' = 51 := by decide
      omega
    have hne0 : decide (dc (da / 10) = '0') = false := by
      apply decide_eq_false
      apply dc_ne_of_ne _ (by omega)
      have : code '0' = 48 := by decide
      omega
    have hnesp : decide (dc (da / 10) = ' ') = false := by
      apply decide_eq_false
      apply dc_ne_of_ne _ (by omega)
      have : code ' ' = 32 := by decide
      omega
    simp [hne3, hne0, hnesp,
      decide_eq_true (show (49:Nat) ≤ 48 + da / 10 by omega),
      decide_eq_true (show 48 + da / 10 ≤ 50 by omega),
      decide_eq_true (show 48 + da / 10 ≤ 57 by omega)]
    omega
  · have hdiv : da / 10 = 3 := by omega
    have h3 : dc (da / 10) = '3' := by rw [hdiv]; decide
    rw [h3]
    simp [show decide ('3' = '0') = false from by decide,
      show decide ('3' = ' ') = false from by decide,
      show decide ((49:Nat) ≤ code '3') = true from by decide,
      show decide (code '3' ≤ 50) = false from by decide,
      show decide (code '3' ≤ 57) = true from by decide,
      decide_eq_true (show (48:Nat) ≤ 48 + da % 10 by omega),
      decide_eq_true (show 48 + da % 10 ≤ 49 by omega),
      show dVal '3' = 3 from by decide, hdiv]
    omega

theorem pLit_cons_eq (c : Char) (r : List Char) : pLit c (c :: r) = [((), r)] := by
  simp [pLit]

theorem pLit_cons_ne {x c : Char} (h : x ≠ c) (r : List Char) : pLit c (x :: r) = [] := by
  simp [pLit, h]

theorem pLit_dc_ne {k : Nat} {c : Char} (hk : k ≤ 9) (hc : code c < 48 ∨ 57 < code c)
    (r : List Char) : pLit c (dc k :: r) = [] := by
  apply pLit_cons_ne
  apply dc_ne_of_ne _ hk
  omega

theorem pYMD_strftime {y mo da : Nat} (hy1 : 1000 ≤ y) (hy2 : y ≤ 9999)
    (hm1 : 1 ≤ mo) (hm2 : mo ≤ 12) (hd1 : 1 ≤ da) (hd2 : da ≤ 31) :
    pYMD (natToDecimal y ++ '-' :: (pad2 mo ++ '-' :: pad2 da)) =
      ({ DT.zero with y := y, mo := mo, da := da }, ([] : List Char)) ::
        (if da < 10 then []
         else [({ DT.zero with y := y, mo := mo, da := da / 10 }, [dc (da % 10)])]) := by
  have hdash : code '-' < 48 ∨ 57 < code '-' := by decide
  by_cases hda : da < 10
  · have hDa : pDa (pad2 da) = [(da, [])] := by
      have h := pDa_lt10 hd1 hda []
      rwa [List.append_nil] at h
    rw [if_pos hda]
    by_cases hmo : mo < 10
    · simp [pYMD, pY_digits hy1 hy2, pLit_cons_eq, pMo_lt10 hm1 hmo, hDa]
    · simp [pYMD, pY_digits hy1 hy2, pLit_cons_eq, pMo_ge10 (by omega) hm2, hDa,
        pLit_dc_ne (show mo % 10 ≤ 9 by omega) hdash]
  · have hDa : pDa (pad2 da) = [(da, []), (da / 10, [dc (da % 10)])] := by
      have h := pDa_ge10 (by omega) hd2 []
      rwa [List.append_nil] at h
    rw [if_neg hda]
    by_cases hmo : mo < 10
    · simp [pYMD, pY_digits hy1 hy2, pLit_cons_eq, pMo_lt10 hm1 hmo, hDa]
    · simp [pYMD, pY_digits hy1 hy2, pLit_cons_eq, pMo_ge10 (by omega) hm2, hDa,
        pLit_dc_ne (show mo % 10 ≤ 9 by omega) hdash]

theorem strptimeF_valid {p : List Char → List (DT × List Char)} {s : String} {dt : DT}
    (h : strptimeF p s = some dt) : validDT dt = true := by
  unfold strptimeF at h
  cases hh : (p s.data).head? with
  | none => rw [hh] at h; cases h
  | some pr =>
    rw [hh] at h
    obtain ⟨dt', rest⟩ := pr
    cases rest with
    | nil =>
      simp only at h
      by_cases hv : validDT dt' = true
      · rw [if_pos hv] at h
        cases h
        exact hv
      · rw [if_neg hv] at h
        cases h
    | cons c r => cases h

theorem parseDateAux_valid {s : String} {dt : DT} (h : parseDateAux s = some dt) :
    validDT dt = true := by
  unfold parseDateAux at h
  cases h1 : strptimeF fmt1 s with
  | some d => rw [h1] at h; cases h; exact strptimeF_valid h1
  | none =>
    rw [h1] at h
    cases h2 : strptimeF fmt2 s with
    | some d => rw [h2] at h; cases h; exact strptimeF_valid h2
    | none =>
      rw [h2] at h
      cases h3 : strptimeF fmt3 s with
      | some d => rw [h3] at h; cases h; exact strptimeF_valid h3
      | none =>
        rw [h3] at h
        exact strptimeF_valid h

theorem validDT_bounds {dt : DT} (hv : validDT dt = true) :
    1 ≤ dt.y ∧ dt.y ≤ 9999 ∧ 1 ≤ dt.mo ∧ dt.mo ≤ 12 ∧ 1 ≤ dt.da ∧
    dt.da ≤ daysInMonth dt.y dt.mo ∧ dt.hh ≤ 23 ∧ dt.mi ≤ 59 ∧ dt.ss ≤ 59 := by
  simp only [validDT, Bool.and_eq_true, decide_eq_true_eq] at hv
  tauto

theorem daysInMonth_le_31 (y mo : Nat) : daysInMonth y mo ≤ 31 := by
  unfold daysInMonth
  split
  · split <;> omega
  · split <;> omega

theorem data_strftimeYMD (dt : DT) :
    (strftimeYMD dt).data = natToDecimal dt.y ++ '-' :: (pad2 dt.mo ++ '-' :: pad2 dt.da) := rfl

theorem strptimeF_fmt4_strftime {dt : DT} (hv : validDT dt = true) (h1000 : 1000 ≤ dt.y) :
    strptimeF fmt4 (strftimeYMD dt) =
      some { DT.zero with y := dt.y, mo := dt.mo, da := dt.da } := by
  obtain ⟨hy1, hy2, hm1, hm2, hd1, hd2, _⟩ := validDT_bounds hv
  unfold strptimeF fmt4
  rw [data_strftimeYMD,
    pYMD_strftime h1000 hy2 hm1 hm2 hd1 (le_trans hd2 (daysInMonth_le_31 _ _))]
  simp only [List.head?_cons]
  rw [if_pos]
  simp only [validDT, DT.zero, Bool.and_eq_true, decide_eq_true_eq]
  refine ⟨⟨⟨⟨⟨⟨⟨⟨by omega, by omega⟩, hm1⟩, hm2⟩, hd1⟩, hd2⟩, by omega⟩, by omega⟩, by omega⟩

theorem strptimeF_fmt1_strftime {dt : DT} (hv : validDT dt = true) (h1000 : 1000 ≤ dt.y) :
    strptimeF fmt1 (strftimeYMD dt) = none := by
  obtain ⟨hy1, hy2, hm1, hm2, hd1, hd2, _⟩ := validDT_bounds hv
  have hcode : code 'T' = 84 := by decide
  unfold strptimeF fmt1
  rw [data_strftimeYMD]
  dsimp only
  rw [pYMD_strftime h1000 hy2 hm1 hm2 hd1 (le_trans hd2 (daysInMonth_le_31 _ _))]
  by_cases hda : dt.da < 10
  · rw [if_pos hda]
    simp [pLit]
  · rw [if_neg hda]
    have hne : dc (dt.da % 10) ≠ 'T' := dc_ne_of_ne 'T' (by omega) (by omega)
    simp [pLit, hne]

theorem strptimeF_fmt2_strftime {dt : DT} (hv : validDT dt = true) (h1000 : 1000 ≤ dt.y) :
    strptimeF fmt2 (strftimeYMD dt) = none := by
  obtain ⟨hy1, hy2, hm1, hm2, hd1, hd2, _⟩ := validDT_bounds hv
  have hcode : code 'T' = 84 := by decide
  unfold strptimeF fmt2
  rw [data_strftimeYMD]
  dsimp only
  rw [pYMD_strftime h1000 hy2 hm1 hm2 hd1 (le_trans hd2 (daysInMonth_le_31 _ _))]
  by_cases hda : dt.da < 10
  · rw [if_pos hda]
    simp [pLit]
  · rw [if_neg hda]
    have hne : dc (dt.da % 10) ≠ 'T' := dc_ne_of_ne 'T' (by omega) (by omega)
    simp [pLit, hne]

theorem strptimeF_fmt3_strftime {dt : DT} (hv : validDT dt = true) (h1000 : 1000 ≤ dt.y) :
    strptimeF fmt3 (strftimeYMD dt) = none := by
  obtain ⟨hy1, hy2, hm1, hm2, hd1, hd2, _⟩ := validDT_bounds hv
  have hcode : code ' ' = 32 := by decide
  unfold strptimeF fmt3
  rw [data_strftimeYMD]
  dsimp only
  rw [pYMD_strftime h1000 hy2 hm1 hm2 hd1 (le_trans hd2 (daysInMonth_le_31 _ _))]
  by_cases hda : dt.da < 10
  · rw [if_pos hda]
    simp [pLit]
  · rw [if_neg hda]
    have hne : dc (dt.da % 10) ≠ ' ' := dc_ne_of_ne ' ' (by omega) (by omega)
    simp [pLit, hne]


theorem pYMD_strftime_short {dt : DT} (hsh : dt.y ≤ 999) :
    pYMD ((strftimeYMD dt).data) = [] := by
  have hfail : pY ((strftimeYMD dt).data) = [] := by
    rw [data_strftimeYMD]
    apply pY_fail
    by_cases h10 : dt.y < 10
    · rw [natToDecimal_lt10 h10]
      left
      rfl
    · by_cases h100 : dt.y < 100
      · rw [natToDecimal_len2 (by omega) (by omega)]
        right
        left
        rfl
      · rw [natToDecimal_len3 (by omega) (by omega)]
        right
        right
        rfl
  unfold pYMD
  rw [hfail]
  rfl

theorem length_strftimeYMD_short {dt : DT} (hsh : dt.y ≤ 999) :
    (strftimeYMD dt).length ≤ 9 := by
  have hpad : ∀ n : Nat, (pad2 n).length = 2 := by
    intro n
    unfold pad2
    split <;> rfl
  have hlen : (natToDecimal dt.y).length ≤ 3 := by
    by_cases h10 : dt.y < 10
    · rw [natToDecimal_lt10 h10]
      simp
    · by_cases h100 : dt.y < 100
      · rw [natToDecimal_len2 (by omega) (by omega)]
        simp
      · rw [natToDecimal_len3 (by omega) (by omega)]
        simp
  show (strftimeYMD dt).data.length ≤ 9
  rw [data_strftimeYMD]
  simp [hpad]
  omega

theorem strftimeYMD_ne_empty (dt : DT) : strftimeYMD dt ≠ "" := by
  intro h
  have hd := congrArg String.data h
  rw [data_strftimeYMD] at hd
  simp at hd

theorem parseDate_strftime_roundtrip {dt : DT} (hv : validDT dt = true) :
    parseDate (strftimeYMD dt) = strftimeYMD dt := by
  have hne := strftimeYMD_ne_empty dt
  by_cases h1000 : 1000 ≤ dt.y
  · have f1 := strptimeF_fmt1_strftime hv h1000
    have f2 := strptimeF_fmt2_strftime hv h1000
    have f3 := strptimeF_fmt3_strftime hv h1000
    have f4 := strptimeF_fmt4_strftime hv h1000
    unfold parseDate parseDateAux
    rw [if_neg hne, f1, f2, f3, f4]
    rfl
  · have hshort : dt.y ≤ 999 := by omega
    have hymd := pYMD_strftime_short hshort
    have hf1 : strptimeF fmt1 (strftimeYMD dt) = none := by
      unfold strptimeF fmt1
      rw [hymd]
      rfl
    have hf2 : strptimeF fmt2 (strftimeYMD dt) = none := by
      unfold strptimeF fmt2
      rw [hymd]
      rfl
    have hf3 : strptimeF fmt3 (strftimeYMD dt) = none := by
      unfold strptimeF fmt3
      rw [hymd]
      rfl
    have hf4 : strptimeF fmt4 (strftimeYMD dt) = none := by
      unfold strptimeF fmt4
      rw [hymd]
      rfl
    have hlen := length_strftimeYMD_short hshort
    unfold parseDate parseDateAux
    rw [if_neg hne, hf1, hf2, hf3, hf4, if_neg (by omega)]

/-- **C5.** Date normalization is idempotent on recognized inputs: for
every raw date string matching one of the four recognized formats,
normalizing the output again yields that same output. -/
theorem parse_date_idempotent (s : String) (dt : DT) (h : parseDateAux s = some dt) :
    parseDate (parseDate s) = parseDate s := by
  have hv := parseDateAux_valid h
  have hs : s ≠ "" := by
    intro he
    rw [he] at h
    have hnone : parseDateAux "" = none := rfl
    rw [hnone] at h
    cases h
  have h1 : parseDate s = strftimeYMD dt := by
    unfold parseDate
    rw [if_neg hs, h]
  rw [h1, parseDate_strftime_roundtrip hv]

/-- Witness for C5: a fully-qualified ISO input. -/
theorem parse_date_idempotent_witness :
    parseDate (parseDate "2024-05-06T07:08:09Z") = parseDate "2024-05-06T07:08:09Z" :=
  parse_date_idempotent "2024-05-06T07:08:09Z" ⟨2024, 5, 6, 7, 8, 9, 0⟩ (by decide)

/-- **C10.** Date normalization is total: it is a function on all
strings (never an exception), and every result is the sentinel, a
rendered parse, the first-10-characters fallback, or the input itself —
every parse failure is absorbed. -/
theorem parse_date_total_classification (s : String) :
    parseDate s = "Дата не найдена" ∨
    (∃ dt, parseDateAux s = some dt ∧ parseDate s = strftimeYMD dt) ∨
    (parseDateAux s = none ∧ (parseDate s = strTake s 10 ∨ parseDate s = s)) := by
  unfold parseDate
  by_cases he : s = ""
  · rw [if_pos he]
    exact Or.inl rfl
  · rw [if_neg he]
    cases hp : parseDateAux s with
    | some dt => exact Or.inr (Or.inl ⟨dt, rfl, rfl⟩)
    | none =>
      by_cases h10 : s.length ≥ 10
      · rw [if_pos h10]
        exact Or.inr (Or.inr ⟨rfl, Or.inl rfl⟩)
      · rw [if_neg h10]
        exact Or.inr (Or.inr ⟨rfl, Or.inr rfl⟩)

theorem isYYYYMMDD_strftime {dt : DT} (hv : validDT dt = true) (h1000 : 1000 ≤ dt.y) :
    isYYYYMMDD (strftimeYMD dt) = true := by
  obtain ⟨hy1, hy2, hm1, hm2, hd1, hd2, _⟩ := validDT_bounds hv
  have hd31 : dt.da ≤ 31 := le_trans hd2 (daysInMonth_le_31 _ _)
  have hdig0 : isDigitC '0' = true := by decide
  have hy4 : isDigitC (dc (dt.y / 1000)) = true := isDigitC_dc (by omega)
  have hy3 : isDigitC (dc (dt.y / 100 % 10)) = true := isDigitC_dc (by omega)
  have hy2d : isDigitC (dc (dt.y / 10 % 10)) = true := isDigitC_dc (by omega)
  have hy1d : isDigitC (dc (dt.y % 10)) = true := isDigitC_dc (by omega)
  show isYYYYMMDD (String.mk (natToDecimal dt.y ++ '-' :: (pad2 dt.mo ++ '-' :: pad2 dt.da))) = true
  rw [natToDecimal_len4 h1000 hy2]
  by_cases hmo : dt.mo < 10 <;> by_cases hda : dt.da < 10
  · rw [show pad2 dt.mo = ['0', dc dt.mo] from by rw [pad2, if_pos hmo],
        show pad2 dt.da = ['0', dc dt.da] from by rw [pad2, if_pos hda]]
    simp [isYYYYMMDD, hdig0, hy4, hy3, hy2d, hy1d,
      isDigitC_dc (show dt.mo ≤ 9 by omega), isDigitC_dc (show dt.da ≤ 9 by omega)]
  · rw [show pad2 dt.mo = ['0', dc dt.mo] from by rw [pad2, if_pos hmo],
        show pad2 dt.da = [dc (dt.da / 10), dc (dt.da % 10)] from by rw [pad2, if_neg hda]]
    simp [isYYYYMMDD, hdig0, hy4, hy3, hy2d, hy1d,
      isDigitC_dc (show dt.mo ≤ 9 by omega),
      isDigitC_dc (show dt.da / 10 ≤ 9 by omega), isDigitC_dc (show dt.da % 10 ≤ 9 by omega)]
  · rw [show pad2 dt.mo = [dc (dt.mo / 10), dc (dt.mo % 10)] from by rw [pad2, if_neg hmo],
        show pad2 dt.da = ['0', dc dt.da] from by rw [pad2, if_pos hda]]
    simp [isYYYYMMDD, hdig0, hy4, hy3, hy2d, hy1d,
      isDigitC_dc (show dt.mo / 10 ≤ 9 by omega), isDigitC_dc (show dt.mo % 10 ≤ 9 by omega),
      isDigitC_dc (show dt.da ≤ 9 by omega)]
  · rw [show pad2 dt.mo = [dc (dt.mo / 10), dc (dt.mo % 10)] from by rw [pad2, if_neg hmo],
        show pad2 dt.da = [dc (dt.da / 10), dc (dt.da % 10)] from by rw [pad2, if_neg hda]]
    simp [isYYYYMMDD, hdig0, hy4, hy3, hy2d, hy1d,
      isDigitC_dc (show dt.mo / 10 ≤ 9 by omega), isDigitC_dc (show dt.mo % 10 ≤ 9 by omega),
      isDigitC_dc (show dt.da / 10 ≤ 9 by omega), isDigitC_dc (show dt.da % 10 ≤ 9 by omega)]

/-- **C4 (amended).** The empty string yields the sentinel without any
parse being attempted; a recognized raw string renders as
unpadded-year `%Y-%m-%d` — of the literal shape `YYYY-MM-DD` whenever
the parsed year is at least 1000 (for smaller years the platform
`strftime` drops the zero padding, refuted for the original claim by
`date_year_padding_counterexample`); on total parse failure a string of
length ≥ 10 yields its first 10 characters and a shorter non-empty
string is returned unmodified. -/
theorem parse_date_normalization (s : String) (dt : DT) :
    (parseDate "" = "Дата не найдена") ∧
    (s ≠ "" → parseDateAux s = some dt →
      parseDate s = strftimeYMD dt ∧ (1000 ≤ dt.y → isYYYYMMDD (parseDate s) = true)) ∧
    (s ≠ "" → parseDateAux s = none →
      parseDate s = (if 10 ≤ s.length then strTake s 10 else s)) := by
  refine ⟨rfl, ?_, ?_⟩
  · intro hs h
    have hps : parseDate s = strftimeYMD dt := by
      unfold parseDate
      rw [if_neg hs, h]
    refine ⟨hps, fun h1000 => ?_⟩
    rw [hps]
    exact isYYYYMMDD_strftime (parseDateAux_valid h) h1000
  · intro hs h
    unfold parseDate
    rw [if_neg hs, h]

/-- Counterexample to C4 as stated: `"0005-01-02"` matches the
date-only format, yet its normalization `"5-01-02"` is not of the shape
`YYYY-MM-DD`. -/
theorem date_year_padding_counterexample :
    parseDateAux "0005-01-02" = some ⟨5, 1, 2, 0, 0, 0, 0⟩ ∧
    parseDate "0005-01-02" = "5-01-02" ∧
    isYYYYMMDD (parseDate "0005-01-02") = false :=
  ⟨by decide, by decide, by decide⟩

/-- Witness for C4: a recognized input and a failing input, with the
implications of the amended claim discharged. -/
theorem parse_date_normalization_witness :
    parseDate "2024-05-06" = strftimeYMD ⟨2024, 5, 6, 0, 0, 0, 0⟩ ∧
    isYYYYMMDD (parseDate "2024-05-06") = true ∧
    parseDate "not-a-real-date!!" =
      (if 10 ≤ ("not-a-real-date!!" : String).length then strTake "not-a-real-date!!" 10
       else "not-a-real-date!!") := by
  have h1 := (parse_date_normalization "2024-05-06" ⟨2024, 5, 6, 0, 0, 0, 0⟩).2.1
    (by decide) (by decide)
  have h2 := (parse_date_normalization "not-a-real-date!!" ⟨2024, 5, 6, 0, 0, 0, 0⟩).2.2
    (by decide) (by decide)
  exact ⟨h1.1, h1.2 (by decide), h2⟩

/-! ## Keyword-matching claim (C2) -/

/-- The case-insensitive literal matcher succeeds exactly on prefixes
that agree with the keyword up to lowercasing. -/
theorem matchesCI_iff (kw : List Char) : ∀ l : List Char,
    (matchesCI kw l = true ↔
      kw.length ≤ l.length ∧ (l.take kw.length).map lowerChar = kw.map lowerChar) := by
  induction kw with
  | nil =>
    intro l
    simp [matchesCI]
  | cons p ps ih =>
    intro l
    cases l with
    | nil => simp [matchesCI]
    | cons c cs =>
      simp only [matchesCI, Bool.and_eq_true, List.length_cons, List.take_succ_cons,
        List.map_cons, List.cons.injEq, ih cs, charCI, beq_iff_eq]
      constructor
      · rintro ⟨hc, hlen, hmap⟩
        exact ⟨by omega, hc.symm, hmap⟩
      · rintro ⟨hlen, hc, hmap⟩
        exact ⟨hc.symm, by omega, hmap⟩

/-- `headIsWordC` through `head?`. -/
theorem headIsWordC_eq_head? (l : List Char) :
    headIsWordC l = (match l.head? with | some c => isWordChar c | none => false) := by
  cases l <;> rfl

/-- The word-character test at position `i` is the head test of the
`i`-th suffix. -/
theorem isWordAt_eq_drop (t : List Char) (i : Nat) :
    isWordAt t i = headIsWordC (t.drop i) := by
  rw [headIsWordC_eq_head?, List.head?_drop]
  unfold isWordAt
  rw [List.get?_eq_getElem?]

/-- `lastIsWordC` through `getLast?`. -/
theorem lastIsWordC_eq_getLast? (l : List Char) :
    lastIsWordC l = (match l.getLast? with | some c => isWordChar c | none => false) := by
  unfold lastIsWordC
  rw [headIsWordC_eq_head?, List.head?_reverse]

/-- The word-character test before position `i` is the last-character
test of the `i`-th prefix. -/
theorem prevIsWord_eq_take (t : List Char) (i : Nat) (hi : i ≤ t.length) :
    prevIsWord t i = lastIsWordC (t.take i) := by
  cases i with
  | zero => rfl
  | succ j =>
    unfold prevIsWord
    rw [lastIsWordC_eq_getLast?, List.getLast?_eq_getElem?]
    have hlen : (t.take (j + 1)).length = j + 1 := by
      rw [List.length_take]
      omega
    rw [hlen]
    simp only [Nat.add_sub_cancel, List.getElem?_take, if_pos (Nat.lt_succ_self j)]
    unfold isWordAt
    rw [List.get?_eq_getElem?]

/-- The regex search `\b kw \b` (case-insensitive) succeeds on `t`
exactly when `t` splits as `pre ++ mid ++ post` with `mid` equal to the
keyword up to case and a word/non-word flip at both seams. -/
theorem searchWord_iff (kw t : List Char) :
    searchWord kw t = true ↔
      ∃ pre mid post : List Char,
        t = pre ++ mid ++ post ∧
        mid.map lowerChar = kw.map lowerChar ∧
        lastIsWordC pre ≠ headIsWordC (mid ++ post) ∧
        lastIsWordC (pre ++ mid) ≠ headIsWordC post := by
  unfold searchWord
  rw [List.any_eq_true]
  constructor
  · rintro ⟨i, hi, hpred⟩
    rw [List.mem_range] at hi
    have hile : i ≤ t.length := by omega
    simp only [Bool.and_eq_true] at hpred
    obtain ⟨⟨hb1, hm⟩, hb2⟩ := hpred
    obtain ⟨hklen, hmap⟩ := (matchesCI_iff kw (t.drop i)).mp hm
    rw [List.length_drop] at hklen
    refine ⟨t.take i, (t.drop i).take kw.length, (t.drop i).drop kw.length, ?_, hmap, ?_, ?_⟩
    · rw [List.append_assoc, List.take_append_drop, List.take_append_drop]
    · rw [List.take_append_drop]
      unfold boundaryAt at hb1
      rw [bne_iff_ne] at hb1
      rw [← prevIsWord_eq_take t i hile, ← isWordAt_eq_drop]
      exact hb1
    · unfold boundaryAt at hb2
      rw [bne_iff_ne] at hb2
      rw [← List.take_add, ← prevIsWord_eq_take t (i + kw.length) (by omega),
        List.drop_drop, ← isWordAt_eq_drop]
      exact hb2
  · rintro ⟨pre, mid, post, ht, hmap, hb1, hb2⟩
    have hmidlen : mid.length = kw.length := by
      have := congrArg List.length hmap
      simpa using this
    have htlen : t.length = pre.length + mid.length + post.length := by
      rw [ht]
      simp only [List.length_append]
    refine ⟨pre.length, by rw [List.mem_range]; omega, ?_⟩
    simp only [Bool.and_eq_true]
    have ht2 : t = pre ++ (mid ++ post) := by
      rw [ht, List.append_assoc]
    have hdropi : t.drop pre.length = mid ++ post := by
      rw [ht2, List.drop_left]
    have htakei : t.take pre.length = pre := by
      rw [ht2, List.take_left]
    refine ⟨⟨?_, ?_⟩, ?_⟩
    · unfold boundaryAt
      rw [bne_iff_ne, prevIsWord_eq_take t pre.length (by omega), isWordAt_eq_drop,
        hdropi, htakei]
      exact hb1
    · rw [matchesCI_iff]
      constructor
      · rw [List.length_drop]
        omega
      · rw [hdropi, List.take_left' hmidlen]
        exact hmap
    · unfold boundaryAt
      rw [bne_iff_ne, prevIsWord_eq_take t (pre.length + kw.length) (by omega),
        isWordAt_eq_drop]
      have ht' : t = (pre ++ mid) ++ post := by
        rw [ht, List.append_assoc]
      have hpm : (pre ++ mid).length = pre.length + kw.length := by
        rw [List.length_append, hmidlen]
      rw [ht', List.take_left' hpm, List.drop_left' hpm]
      exact hb2

/-- Lowercasing the pattern again does not change case-insensitive
comparison. -/
theorem map_lowerChar_lowerStr (s : String) :
    (lowerStr s).data.map lowerChar = s.data.map lowerChar := by
  show (s.data.map lowerChar).map lowerChar = s.data.map lowerChar
  rw [List.map_map]
  exact List.map_congr_left fun c _ => lowerChar_idem c

/-- The compiled pattern of a configured keyword (lowercased by the
constructor) finds a match exactly when the keyword occurs as a
case-insensitive whole word in the text. -/
theorem searchWord_lowerStr_iff (kw text : String) :
    searchWord (lowerStr kw).data text.data = true ↔ specWholeWord kw text := by
  rw [searchWord_iff]
  unfold specWholeWord
  apply exists_congr
  intro pre
  apply exists_congr
  intro mid
  apply exists_congr
  intro post
  rw [map_lowerChar_lowerStr]

/-- **C2 (amended).** For every keyword list `K` and text, the matched
list is an order-preserving sublist of the lowercased forms of `K`
(hence each entry appears at most once whenever the lowercased forms are
distinct), and it is empty iff no word of `K` occurs as a
case-insensitive whole word (word-boundary anchored) in the text.  (The
original "subset of K" is refuted by
`matched_keywords_subset_counterexample`.) -/
theorem matched_keywords_structure (K : List String) (n : Nat) (text : String) :
    ((HabrScraper.init K n).findKeywordsWithRegex text).Sublist (K.map lowerStr) ∧
    ((K.map lowerStr).Nodup →
      ∀ x, ((HabrScraper.init K n).findKeywordsWithRegex text).count x ≤ 1) ∧
    (((HabrScraper.init K n).findKeywordsWithRegex text) = [] ↔
      ∀ kw ∈ K, ¬ specWholeWord kw text) := by
  have hdef : (HabrScraper.init K n).findKeywordsWithRegex text =
      (K.map lowerStr).filter (fun kw => searchWord kw.data text.data) := rfl
  refine ⟨?_, ?_, ?_⟩
  · rw [hdef]
    exact List.filter_sublist _
  · intro hnodup x
    calc ((HabrScraper.init K n).findKeywordsWithRegex text).count x
        ≤ (K.map lowerStr).count x := by
          rw [hdef]
          exact (List.filter_sublist _).count_le x
      _ ≤ 1 := List.nodup_iff_count_le_one.mp hnodup x
  · rw [hdef, List.filter_eq_nil_iff]
    constructor
    · intro hall kw hkw hspec
      exact hall (lowerStr kw) (List.mem_map.mpr ⟨kw, hkw, rfl⟩)
        ((searchWord_lowerStr_iff kw text).mpr hspec)
    · intro hall a ha
      obtain ⟨kw, hkw, rfl⟩ := List.mem_map.mp ha
      intro hsearch
      exact hall kw hkw ((searchWord_lowerStr_iff kw text).mp hsearch)

/-- Witness for C2: `K = ["Python"]`, text `"use Python!"`. -/
theorem matched_keywords_structure_witness :
    ((HabrScraper.init ["Python"] 3).findKeywordsWithRegex "use Python!").Sublist
      (["Python"].map lowerStr) ∧
    (∀ x, ((HabrScraper.init ["Python"] 3).findKeywordsWithRegex "use Python!").count x ≤ 1) ∧
    ¬ (∀ kw ∈ (["Python"] : List String), ¬ specWholeWord kw "use Python!") := by
  have h := matched_keywords_structure ["Python"] 3 "use Python!"
  refine ⟨h.1, h.2.1 (by decide), fun hall => ?_⟩
  have hempty := h.2.2.mpr hall
  have : ¬ ((HabrScraper.init ["Python"] 3).findKeywordsWithRegex "use Python!" = []) := by
    decide
  exact this hempty

/-- Counterexample to C2 as stated: with `K = ["Python"]` the matched
list is `["python"]`, which is not a subset of `K`. -/
theorem matched_keywords_subset_counterexample :
    (HabrScraper.init ["Python"] 3).findKeywordsWithRegex "try Python" = ["python"] ∧
    "python" ∉ (["Python"] : List String) :=
  ⟨by decide, by decide⟩
